import Mathlib

set_option maxRecDepth 1000000

/-!
Verification of the pool-monitor repository.

This file embeds the TypeScript sources of the `pool-monitor` repository
(`src/poolMonitor.ts`, `src/monitor.ts` and the unnamed router-monitor source)
as Lean definitions and proves or refutes the frozen claims about them.

Conventions of the embedding:

* `bigint` values from chain events (reserves, amounts) are unsigned on chain
  (`uint112`/`uint256`), so they are modelled as `Nat`.
* JavaScript `number` arithmetic (used by `calculatePrice` and `formatValue`)
  is modelled by explicit round-to-nearest-even binary64 rounding over exact
  rationals represented as numerator/denominator pairs of naturals.  The model
  covers the normal finite range (no subnormals or overflow; all values in
  this development are far inside the normal range) and represents the JS
  values `NaN` and `+Infinity` by a zero denominator (numerator 0 resp. 1),
  matching JS division-by-zero semantics.  `Math.pow(10, d)` is modelled as
  the correctly rounded value of `10^d`, which is exact for the exponents 6
  and 18 used by the monitor.
* Async code has no internal concurrency (a single sequential handler path,
  see the spec §5), so `await` is modelled by ordinary sequencing; network
  calls (token metadata fetches, `Interface` parsing from the ABI file that
  is outside `src/`) are modelled as explicit oracle parameters.
* `console.log` output is modelled as the list of the logged strings.
-/

/-! ## JavaScript binary64 numeric model -/

/-- Round-half-to-even of the rational `a / B` to an integer (both naturals,
`B ≠ 0` at call sites). -/
def rhe (a B : ℕ) : ℕ :=
  let q := a / B
  let r := a % B
  if 2 * r < B then q
  else if B < 2 * r then q + 1
  else if q % 2 = 0 then q else q + 1

/-- Decide `a / b < 2 ^ z` for naturals `a b` and integer `z`. -/
def ltPow2 (a b : ℕ) (z : ℤ) : Bool :=
  if 0 ≤ z then a < b * 2 ^ z.toNat else a * 2 ^ (-z).toNat < b

/-- Fuelled binary logarithm (structural recursion so that kernel reduction
works; 4096 bits of fuel covers every quantity in this development). -/
def natLog2Aux : ℕ → ℕ → ℕ
  | 0, _ => 0
  | fuel + 1, n => if 2 ≤ n then natLog2Aux fuel (n / 2) + 1 else 0

/-- `⌊log₂ n⌋` for `n ≥ 1`. -/
def natLog2 (n : ℕ) : ℕ := natLog2Aux 4096 n

/-- Round the exact rational `a / b` to the nearest binary64 value
(ties to even), returned as an exact rational pair whose denominator is a
power of two.  `b = 0` encodes the JS specials: `(0, 0)` is `NaN` and
`(m, 0)` with `m ≠ 0` is `+Infinity`, as produced by JS division by zero. -/
def f64 (a b : ℕ) : ℕ × ℕ :=
  if b = 0 then (if a = 0 then (0, 0) else (1, 0))
  else if a = 0 then (0, 1)
  else
    let e0 : ℤ := (natLog2 a : ℤ) - (natLog2 b : ℤ)
    let e : ℤ := if ltPow2 a b e0 then e0 - 1 else e0
    let s : ℤ := e - 52
    if 0 ≤ s then
      let m := rhe a (b * 2 ^ s.toNat)
      (m * 2 ^ s.toNat, 1)
    else
      let m := rhe (a * 2 ^ (-s).toNat) b
      (m, 2 ^ (-s).toNat)

/-- Binary64 division of two model values (exact quotient, then correctly
rounded), mirroring IEEE 754 division as used by the JS `/` operator. -/
def f64div (x y : ℕ × ℕ) : ℕ × ℕ :=
  f64 (x.1 * y.2) (x.2 * y.1)

/-- Digits of a natural, rendered with bounded fuel (40 digits is enough for
every quantity in this development). -/
def natToStrAux : ℕ → ℕ → String → String
  | 0, _, acc => acc
  | fuel + 1, n, acc =>
    let d := Char.ofNat (48 + n % 10)
    if n < 10 then String.mk (d :: acc.data)
    else natToStrAux fuel (n / 10) (String.mk (d :: acc.data))

/-- Decimal rendering of a natural number. -/
def natToStr (n : ℕ) : String := natToStrAux 40 n ""

/-- Decimal rendering of a natural, left-padded with zeros to `w` digits. -/
def natToStrPad (w : ℕ) (n : ℕ) : String :=
  let s := natToStr n
  String.mk (List.replicate (w - s.length) '0') ++ s

/-- JS `Number.prototype.toFixed(f)` on the exact (nonnegative) value
`x.1 / x.2`: choose the integer `n` with `n / 10^f` closest to the value,
picking the larger `n` on ties, then render with `f` decimal digits.
The model covers the fixed-notation range (`x < 10^21`; every value in this
development is far below it) and maps the JS specials encoded by a zero
denominator to their JS renderings. -/
def jsToFixed (f : ℕ) (x : ℕ × ℕ) : String :=
  if x.2 = 0 then (if x.1 = 0 then "NaN" else "Infinity")
  else
    let scaled := x.1 * 10 ^ f
    let q := scaled / x.2
    let r := scaled % x.2
    let k := if x.2 ≤ 2 * r then q + 1 else q
    natToStr (k / 10 ^ f) ++ "." ++ natToStrPad f (k % 10 ^ f)

/-- `ethers.formatUnits(value, decimals)` (ethers v6): the exact decimal
string of `value / 10^decimals` with trailing fractional zeros trimmed but at
least one fractional digit kept. -/
def ethersFormatUnits (v d : ℕ) : String :=
  let whole := v / 10 ^ d
  let frac := v % 10 ^ d
  let fracStr := natToStrPad d frac
  let trimmed := String.mk (fracStr.data.reverse.dropWhile (· = '0')).reverse
  natToStr whole ++ "." ++ (if trimmed = "" then "0" else trimmed)

/-- `formatValue(value, decimals = 18)` from `poolMonitor.ts` / the router
monitor: `parseFloat(ethers.formatUnits(value, decimals)).toFixed(4)`.
`parseFloat` of the exact decimal string is the nearest binary64 of
`value / 10^decimals`.  The `catch` branch returning `"0.0000"` is
unreachable for natural inputs and nonnegative decimals. -/
def formatValue (v : ℕ) (d : Option ℕ) : String :=
  jsToFixed 4 (f64 v (10 ^ d.getD 18))

/-- `calculatePrice(reserve0, reserve1, token0Decimals, token1Decimals)` from
`poolMonitor.ts` (both revisions, lines 287-301 and 712-726): floating-point
division `Number(reserve0) / Math.pow(10, d0)` etc., then
`(adjusted0 / adjusted1).toFixed(2)`. -/
def calculatePrice (r0 r1 : ℕ) (d0 d1 : ℕ) : String :=
  let adjusted0 := f64div (f64 r0 1) (f64 (10 ^ d0) 1)
  let adjusted1 := f64div (f64 r1 1) (f64 (10 ^ d1) 1)
  jsToFixed 2 (f64div adjusted0 adjusted1)

/-- Modelled from the spec (claim C4 / spec §4.6): the exact rational price
`(reserve0 * 10^d1) / (reserve1 * 10^d0)` rendered with 2 decimal places
(rounding to the nearest hundredth, ties up).  This is the claim-side
reference the code's `calculatePrice` is compared against. -/
def specExactPrice (r0 r1 : ℕ) (d0 d1 : ℕ) : String :=
  jsToFixed 2 (r0 * 10 ^ d1, r1 * 10 ^ d0)

/-! ## Shared data model -/

/-- `TokenInfo` as stored by the monitors.  In the embeddings used below every
constructed record carries a symbol and a decimals value (the TS interface
marks them optional, but all constructors of cached records fill them in). -/
structure TokenInfo where
  address : String
  symbol : String
  decimals : ℕ
deriving DecidableEq, Repr

/-- Token caches are JS `Map<string, TokenInfo>` objects; modelled as
association lists where insertion conses (later bindings shadow). -/
abbrev Cache := List (String × TokenInfo)

/-- `Map.get` / association-list lookup. -/
def cacheGet (c : Cache) (k : String) : Option TokenInfo :=
  match c with
  | [] => none
  | (k', v) :: rest => if k' = k then some v else cacheGet rest k

/-- `Set.has` on the seen-transaction-hash set (a JS `Set<string>` modelled as
the list of its members in insertion order). -/
def setHas (l : List String) (x : String) : Bool :=
  match l with
  | [] => false
  | a :: rest => if a = x then true else setHas rest x

def USDC_ADDRESS : String := "0xA0b86991c6218b36c1d19D4a2e9Eb0cE3606eB48"
def WETH_ADDRESS : String := "0xC02aaA39b223FE8D0A0e5C4F27eAD9083C756Cc2"

/-- ASCII lower-casing of a character (addresses are ASCII, so this matches
JS `toLowerCase`). -/
def lowerChar (c : Char) : Char :=
  if 'A' ≤ c ∧ c ≤ 'Z' then Char.ofNat (c.toNat + 32) else c

/-- `String.prototype.toLowerCase()` for ASCII strings. -/
def strLower (s : String) : String := String.mk (s.data.map lowerChar)

/-- `String.prototype.slice(0, n)` (`n` leading UTF-16 units; identical to
taking `n` characters for the ASCII strings handled here). -/
def strTake (s : String) (n : ℕ) : String := String.mk (s.data.take n)

/-- `String.prototype.slice(n)`. -/
def strDrop (s : String) (n : ℕ) : String := String.mk (s.data.drop n)

/-! ## Pool State Tracker (`poolMonitor.ts`, second revision, lines 397-810) -/

/-- Cache key for USDC (`USDC_ADDRESS.toLowerCase()`). -/
def usdcKey : String := strLower USDC_ADDRESS

/-- Cache key for WETH (`WETH_ADDRESS.toLowerCase()`). -/
def wethKey : String := strLower WETH_ADDRESS

/-- The token cache pre-seeded in the `PoolMonitor` constructor. -/
def initCache : Cache :=
  [(wethKey, ⟨WETH_ADDRESS, "WETH", 18⟩), (usdcKey, ⟨USDC_ADDRESS, "USDC", 6⟩)]

/-- The mutable instance state of `PoolMonitor`: `currentReserves`,
`tokenCache` and `seenTxHashes`. -/
structure PoolState where
  reserve0 : ℕ
  reserve1 : ℕ
  tokenCache : Cache
  seenTxHashes : List String
deriving DecidableEq, Repr

/-- `PoolMonitor` state right after the constructor (reserves are zero until
`initialize` fetches them from the chain). -/
def initState : PoolState := ⟨0, 0, initCache, []⟩

/-- Result of a `getTokenInfo` call: the returned record, the token cache
after the call, and whether a network fetch was attempted. -/
structure Resolved where
  info : TokenInfo
  cache : Cache
  fetched : Bool
deriving DecidableEq, Repr

/-- `getTokenInfo` of the second `PoolMonitor` revision (lines 533-561): on a
cache miss it queries the `token0`/`token1` contract chosen by address and on
failure returns the fallback `{address, address.slice(0,10), 18}` WITHOUT
caching it.  The oracle maps the queried contract address to
`symbol()`/`decimals()` results, `none` modelling a rejected fetch. -/
def getTokenInfoPM2 (o : String → Option (String × ℕ)) (addr : String)
    (c : Cache) : Resolved :=
  let lower := strLower addr
  match cacheGet c lower with
  | some ti => ⟨ti, c, false⟩
  | none =>
    let target := if lower = usdcKey then USDC_ADDRESS else WETH_ADDRESS
    match o target with
    | some sd => ⟨⟨addr, sd.1, sd.2⟩, (lower, ⟨addr, sd.1, sd.2⟩) :: c, true⟩
    | none => ⟨⟨addr, strTake addr 10, 18⟩, c, true⟩

/-- `getCurrentPrice` (lines 523-531): reads `currentReserves` and the cached
decimals of the two pool tokens.  `none` models the `TypeError` thrown by the
non-null-asserted `Map.get` when a seed entry is absent (never the case in
reachable states). -/
def getCurrentPrice (s : PoolState) : Option String :=
  match cacheGet s.tokenCache usdcKey, cacheGet s.tokenCache wethKey with
  | some t0, some t1 =>
    some (calculatePrice s.reserve0 s.reserve1 t0.decimals t1.decimals)
  | _, _ => none

/-- The horizontal rule logged around each event block. -/
def barLine : String := String.mk (List.replicate 40 '━')

/-- `handleSwap` (lines 650-710): resolves the two pool tokens, computes the
price from the CURRENT reserves via `getCurrentPrice`, and logs the swap.
It never touches `currentReserves` or `seenTxHashes`.  The `none` branch of
`getCurrentPrice` models the `catch` (console.error) path. -/
def handleSwap (o : String → Option (String × ℕ)) (sender : String)
    (a0In a1In a0Out a1Out : ℕ) (toAddr txh : String) (s : PoolState) :
    PoolState × List String :=
  let r0 := getTokenInfoPM2 o USDC_ADDRESS s.tokenCache
  let r1 := getTokenInfoPM2 o WETH_ADDRESS r0.cache
  let s' : PoolState := { s with tokenCache := r1.cache }
  (s',
   match getCurrentPrice s' with
   | none => ["Error handling Swap event:"]
   | some price =>
      ["\n💫 Pool Swap Event", barLine, "📝 Event: Swap"]
      ++ (if 0 < a0In then
            ["📥 Amount0In: " ++ formatValue a0In (some r0.info.decimals)
              ++ " " ++ r0.info.symbol] else [])
      ++ (if 0 < a1In then
            ["📥 Amount1In: " ++ formatValue a1In (some r1.info.decimals)
              ++ " " ++ r1.info.symbol] else [])
      ++ (if 0 < a0Out then
            ["📤 Amount0Out: " ++ formatValue a0Out (some r0.info.decimals)
              ++ " " ++ r0.info.symbol] else [])
      ++ (if 0 < a1Out then
            ["📤 Amount1Out: " ++ formatValue a1Out (some r1.info.decimals)
              ++ " " ++ r1.info.symbol] else [])
      ++ ["🔗 Sender: " ++ sender, "🎯 To: " ++ toAddr,
          "💵 ETH Price: " ++ price ++ " USDC", "🔗 Hash: " ++ txh,
          barLine ++ "\n"])

/-- `handleSync` (lines 728-766): early-returns when the transaction hash is
already in `seenTxHashes`; otherwise records the hash, commits the absolute
reserves, logs the sync, and finally clears the whole hash set when its size
exceeds 1000.  The fallback match branch models the `catch` path (the hash
and reserves are already mutated when the cache reads could throw, and the
clear step is then skipped). -/
def handleSync (r0 r1 : ℕ) (txh : String) (s : PoolState) :
    PoolState × List String :=
  if setHas s.seenTxHashes txh then (s, [])
  else
    let s2 : PoolState :=
      { s with seenTxHashes := s.seenTxHashes ++ [txh],
               reserve0 := r0, reserve1 := r1 }
    match cacheGet s2.tokenCache usdcKey, cacheGet s2.tokenCache wethKey with
    | some t0, some t1 =>
      let price := calculatePrice r0 r1 t0.decimals t1.decimals
      let logs :=
        ["\n🔄 Pool Sync Event", barLine, "📝 Event: Sync",
         "💰 Reserve0: " ++ formatValue r0 (some t0.decimals) ++ " USDC",
         "💰 Reserve1: " ++ formatValue r1 (some t1.decimals) ++ " WETH",
         "💵 ETH Price: " ++ price ++ " USDC", "🔗 Hash: " ++ txh,
         barLine ++ "\n"]
      let s3 : PoolState :=
        if 1000 < s2.seenTxHashes.length then { s2 with seenTxHashes := [] }
        else s2
      (s3, logs)
    | _, _ => (s2, ["Error handling Sync event:"])

/-- Folding `handleSync` over a stream of transaction hashes (fixed reserve
payload), used to state the eviction behaviour of `seenTxHashes`. -/
def foldSync (s : PoolState) (hs : List String) : PoolState :=
  hs.foldl (fun st h => (handleSync 1000000 500 h st).1) s

/-! ## Selector registry tables -/

/-- `knownSignatures` of the router monitor (unnamed source, lines 91-103):
4-byte selector (with `0x` prefix) to router operation name. -/
def knownSignatures : List (String × String) :=
  [("0x791ac947", "swapExactTokensForTokensSupportingFeeOnTransferTokens"),
   ("0x38ed1739", "swapExactTokensForTokens"),
   ("0x7ff36ab5", "swapExactETHForTokens"),
   ("0x18cbafe5", "swapExactTokensForETH"),
   ("0xfb3bdb41", "swapETHForExactTokens"),
   ("0x4a25d94a", "swapTokensForExactETH"),
   ("0x8803dbee", "swapTokensForExactTokens"),
   ("0xf305d719", "addLiquidityETH"),
   ("0xe8e33700", "addLiquidity"),
   ("0xbaa2abde", "removeLiquidity"),
   ("0x02751cec", "removeLiquidityETH")]

/-- Association lookup over a string-keyed table (the JS object property
access `this.knownSignatures[signature]`). -/
def sigLookup (l : List (String × String)) (k : String) : Option String :=
  match l with
  | [] => none
  | (k', v) :: rest => if k' = k then some v else sigLookup rest k

/-- Pool-scope selector constants (`FUNCTION_SIGNATURES` of the pool-side
`TransactionMonitor` in `poolMonitor.ts`, lines 826-830). -/
def SWAP_SIG : String := "0x022c0d9f"

def ADD_LIQUIDITY_SIG : String := "0xf305d719"

def REMOVE_LIQUIDITY_SIG : String := "0xbaa2abde"

/-- `getTransactionType` of the pool-side `TransactionMonitor`
(`poolMonitor.ts`, lines 871-884): switch on the first 10 characters of the
transaction input against `FUNCTION_SIGNATURES`, defaulting to `UNKNOWN`. -/
def getTransactionType (input : String) : String :=
  let sig := strTake input 10
  if sig = SWAP_SIG then "SWAP"
  else if sig = ADD_LIQUIDITY_SIG then "ADD_LIQUIDITY"
  else if sig = REMOVE_LIQUIDITY_SIG then "REMOVE_LIQUIDITY"
  else "UNKNOWN"

/-! ## ABI decoding (`decodeParameters` of the unnamed router source) -/

/-- Parameter type tags appearing in the router monitor's `functionTypes`
tables. -/
inductive AbiTy where
  | uint256
  | addressTy
  | addressArr
deriving DecidableEq, Repr

/-- Decoded ABI values. -/
inductive AbiVal where
  | num (n : ℕ)
  | addr (a : String)
  | addrs (l : List String)
deriving DecidableEq, Repr

/-- `functionTypes` (unnamed source, lines 105-134): manual parameter schemas
for four of the known router functions. -/
def functionTypes : List (String × List AbiTy) :=
  [("swapExactTokensForTokensSupportingFeeOnTransferTokens",
    [.uint256, .uint256, .addressArr, .addressTy, .uint256]),
   ("swapExactTokensForTokens",
    [.uint256, .uint256, .addressArr, .addressTy, .uint256]),
   ("swapExactETHForTokens", [.uint256, .addressArr, .addressTy, .uint256]),
   ("swapExactTokensForETH",
    [.uint256, .uint256, .addressArr, .addressTy, .uint256])]

/-- Lookup in `functionTypes`. -/
def fnTypesLookup (l : List (String × List AbiTy)) (k : String) :
    Option (List AbiTy) :=
  match l with
  | [] => none
  | (k', v) :: rest => if k' = k then some v else fnTypesLookup rest k

/-- Numeric value of a hex digit character. -/
def hexVal (c : Char) : Option ℕ :=
  if '0' ≤ c ∧ c ≤ '9' then some (c.toNat - 48)
  else if 'a' ≤ c ∧ c ≤ 'f' then some (c.toNat - 87)
  else if 'A' ≤ c ∧ c ≤ 'F' then some (c.toNat - 55)
  else none

/-- Hex character pairs to bytes; fails on odd length or non-hex characters
(mirroring `ethers.getBytes` which throws on malformed hex). -/
def hexPairs : List Char → Option (List ℕ)
  | [] => some []
  | c1 :: c2 :: rest => do
    let h ← hexVal c1
    let l ← hexVal c2
    let bs ← hexPairs rest
    pure ((16 * h + l) :: bs)
  | [_] => none

/-- `ethers.getBytes` on a `0x`-prefixed hex string. -/
def hexToBytes (s : String) : Option (List ℕ) :=
  if strTake s 2 = "0x" then hexPairs (strDrop s 2).data else none

/-- Big-endian natural of a byte list. -/
def beNat (l : List ℕ) : ℕ := l.foldl (fun a b => a * 256 + b) 0

/-- Read the 32-byte word at byte offset `pos`, failing past the end of the
data (ethers v6 `BUFFER_OVERRUN`). -/
def readWord (bytes : List ℕ) (pos : ℕ) : Option ℕ :=
  if pos + 32 ≤ bytes.length then some (beNat ((bytes.drop pos).take 32))
  else none

/-- Lowercase hex digit character. -/
def hexDigit (n : ℕ) : Char :=
  if n < 10 then Char.ofNat (48 + n) else Char.ofNat (87 + n)

/-- Render `n` as `w` lowercase hex digits (big-endian, left-padded). -/
def toHexPad : ℕ → ℕ → List Char → List Char
  | 0, _, acc => acc
  | w + 1, n, acc => toHexPad w (n / 16) (hexDigit (n % 16) :: acc)

/-- Render the low 160 bits of a word as a `0x`-prefixed 40-digit address
string.  (EIP-55 checksum casing applied by ethers is not modelled; no claim
in this development depends on the casing of decoded addresses.) -/
def addrOfWord (w : ℕ) : String :=
  "0x" ++ String.mk (toHexPad 40 (w % 2 ^ 160) [])

/-- Read `count` consecutive address words starting at byte offset `pos`. -/
def readAddrs (bytes : List ℕ) (pos : ℕ) : ℕ → Option (List String)
  | 0 => some []
  | k + 1 => do
    let w ← readWord bytes pos
    let rest ← readAddrs bytes (pos + 32) k
    pure (addrOfWord w :: rest)

/-- ABI-style positional decode: one 32-byte head slot per parameter;
`address[]` heads hold a byte offset to a length-prefixed tail. -/
def abiDecodeAux (bytes : List ℕ) : List AbiTy → ℕ → Option (List AbiVal)
  | [], _ => some []
  | t :: rest, idx => do
    let w ← readWord bytes (32 * idx)
    let v ← (match t with
      | .uint256 => some (AbiVal.num w)
      | .addressTy => some (AbiVal.addr (addrOfWord w))
      | .addressArr => do
        let n ← readWord bytes w
        let elems ← readAddrs bytes (w + 32) n
        pure (AbiVal.addrs elems))
    let vs ← abiDecodeAux bytes rest (idx + 1)
    pure (v :: vs)

/-- `decodeParameters(types, data)` (unnamed source, lines 230-240): strip the
4-byte selector, re-prefix `0x`, decode with `AbiCoder`; any failure is
caught and yields `null`. -/
def decodeParameters (tys : List AbiTy) (data : String) :
    Option (List AbiVal) :=
  match hexToBytes ("0x" ++ strDrop data 10) with
  | some bs => abiDecodeAux bs tys 0
  | none => none

/-! ## Token Metadata Cache of the router monitors -/

/-- Fetch oracle for the router monitors' `getTokenInfo`: per address, the
result of the `symbol()` call (`none` = rejected, mapped to `null` by the
inner `.catch`) and of the `decimals()` call (`none` = rejected, mapped to
`18` by the inner `.catch`). -/
abbrev FetchR := String → Option String × Option ℕ

/-- The token record built by `getTokenInfo` of the unnamed router source
(lines 174-210) and of the first `PoolMonitor` revision (lines 77-113) on a
cache miss: `symbol || address.slice(0, 10)` and the fetched decimals or the
fallback 18.  This record does not depend on the cache contents. -/
def fetchInfo (ft : FetchR) (addr : String) : TokenInfo :=
  ⟨addr,
   (match (ft addr).1 with
    | some s => if s = "" then strTake addr 10 else s
    | none => strTake addr 10),
   ((ft addr).2).getD 18⟩

/-- `getTokenInfo` of the unnamed router source / first `PoolMonitor`
revision: cache hit returns immediately; a miss fetches (with per-call
fallbacks) and ALWAYS caches the result, keyed by the raw address. -/
def getTokenInfoR (ft : FetchR) (addr : String) (c : Cache) : Resolved :=
  match cacheGet c addr with
  | some ti => ⟨ti, c, false⟩
  | none => ⟨fetchInfo ft addr, (addr, fetchInfo ft addr) :: c, true⟩

/-- The token record `getTokenInfo` would resolve `addr` to from cache `c`
(the cached record on a hit, the fetched record otherwise). -/
def resolvedInfo (ft : FetchR) (addr : String) (c : Cache) : TokenInfo :=
  (getTokenInfoR ft addr c).info

/-- Resolve every address of a path in order, threading the cache
(`path.map(addr => this.getTokenInfo(addr))`). -/
def resolvePath (ft : FetchR) : List String → Cache → List TokenInfo × Cache
  | [], c => ([], c)
  | a :: as, c =>
    let r := getTokenInfoR ft a c
    let rest := resolvePath ft as r.cache
    (r.info :: rest.1, rest.2)

/-- Display form of a resolved token in a path
(`info.symbol || info.address.slice(0, 10)`). -/
def symStr (ti : TokenInfo) : String :=
  if ti.symbol = "" then strTake ti.address 10 else ti.symbol

/-- `getTokenPathInfo(path)` (lines 212-219): resolve every hop and join the
symbols with arrows. -/
def getTokenPathInfo (ft : FetchR) (p : List String) (c : Cache) :
    String × Cache :=
  let r := resolvePath ft p c
  (String.intercalate " → " (r.1.map symStr), r.2)

/-! ## Calldata Decoder (`decodeRouterFunction` of the unnamed source) -/

/-- Named view of an ethers `Result` as accessed by the decoder
(`decoded.args.path`, `.amountIn`, ...).  Absent properties are `none`. -/
structure NamedArgs where
  path : Option (List String) := none
  amountIn : Option ℕ := none
  amountOut : Option ℕ := none
  amountOutMin : Option ℕ := none
  amountInMax : Option ℕ := none
  toA : Option String := none
  amountADesired : Option ℕ := none
  amountBDesired : Option ℕ := none
  tokenA : Option String := none
  tokenB : Option String := none
deriving DecidableEq, Repr

/-- An ethers `parseTransaction` result: the resolved function name plus the
positional and named views of its arguments. -/
structure IfaceParsed where
  name : String
  list : List AbiVal
  named : NamedArgs
deriving DecidableEq, Repr

/-- Oracle for the ethers `Interface` built from `UNISWAP_V2_ROUTER_ABI`
(the ABI file lives outside `src/`; the oracle's three fields model
`parseTransaction`, `decodeFunctionData`, and the fragment scan of the final
fallback, with `none` modelling a throw / no match). -/
structure IfaceOracle where
  parseTx : String → Option IfaceParsed
  decodeFnData : String → String → Option (List AbiVal × NamedArgs)
  fragMatch : String → Option String

/-- The `formatted` field map of a `DecodedOperation`; unset fields are
`none`. -/
structure Formatted where
  path : Option String := none
  amountIn : Option String := none
  amountOut : Option String := none
  amountOutMin : Option String := none
  amountInMax : Option String := none
  toA : Option String := none
  amountADesired : Option String := none
  amountBDesired : Option String := none
deriving DecidableEq, Repr

/-- A `DecodedOperation`: `{name, args, formatted}`. -/
structure DecodedOp where
  name : String
  args : List AbiVal
  fmt : Formatted
deriving DecidableEq, Repr

/-- One amount-formatting block of the interface branch (lines 328-369 and
373-391 of the unnamed source): for a truthy amount, resolve the pairing
token (if present and truthy) and render
`formatValue(amount, tokenInfo?.decimals) + " " + (tokenInfo?.symbol || "")`;
with no token the decimals default to 18 and the symbol renders empty. -/
def fmtAmountBlock (ft : FetchR) (c : Cache) (amt : Option ℕ)
    (tok : Option String) : Option String × Cache :=
  match amt with
  | none => (none, c)
  | some v =>
    if v = 0 then (none, c)
    else
      match tok with
      | some t =>
        if t = "" then (some (formatValue v none ++ " "), c)
        else
          let r := getTokenInfoR ft t c
          (some (formatValue v (some r.info.decimals) ++ " " ++ r.info.symbol),
           r.cache)
      | none => (some (formatValue v none ++ " "), c)

/-- The path block of the interface branch: `if (decoded.args.path)`
(arrays are always truthy). -/
def pathBlock (ft : FetchR) (c : Cache) (po : Option (List String)) :
    Option String × Cache :=
  match po with
  | some p =>
    let r := getTokenPathInfo ft p c
    (some r.1, r.2)
  | none => (none, c)

/-- The `formatted.to` assignment (`if (decoded.args.to)`; the empty string
is falsy). -/
def toFmtOf (o : Option String) : Option String :=
  match o with
  | some t => if t = "" then none else some t
  | none => none

/-- The full interface-branch formatting (unnamed source, lines 319-392), in
source order: path, amountIn (first hop), amountOut (last hop), amountOutMin
(last hop), amountInMax (first hop), to, amountADesired (tokenA),
amountBDesired (tokenB). -/
def buildIfaceFmt (ft : FetchR) (c : Cache) (a : NamedArgs) :
    Formatted × Cache :=
  let pB := pathBlock ft c a.path
  let inB := fmtAmountBlock ft pB.2 a.amountIn (a.path.bind List.head?)
  let outB := fmtAmountBlock ft inB.2 a.amountOut (a.path.bind List.getLast?)
  let outMinB :=
    fmtAmountBlock ft outB.2 a.amountOutMin (a.path.bind List.getLast?)
  let inMaxB :=
    fmtAmountBlock ft outMinB.2 a.amountInMax (a.path.bind List.head?)
  let aDesB := fmtAmountBlock ft inMaxB.2 a.amountADesired a.tokenA
  let bDesB := fmtAmountBlock ft aDesB.2 a.amountBDesired a.tokenB
  ({path := pB.1, amountIn := inB.1, amountOut := outB.1,
    amountOutMin := outMinB.1, amountInMax := inMaxB.1, toA := toFmtOf a.toA,
    amountADesired := aDesB.1, amountBDesired := bDesB.1},
   bDesB.2)

/-- Truthiness of a decoded ABI value as tested by `if (decoded[i])`:
`0n` is falsy, the empty string is falsy, arrays are truthy. -/
def abiTruthy : AbiVal → Bool
  | .num n => n ≠ 0
  | .addr a => a ≠ ""
  | .addrs _ => true

/-- Numeric value a decoded ABI value contributes when passed to
`formatValue` (a hex address string is a valid `BigNumberish`; an array makes
`formatUnits` throw, caught inside `formatValue` yielding `"0.0000"`). -/
def abiAmount : AbiVal → Option ℕ
  | .num n => some n
  | .addr a => (hexToBytes a).map beNat
  | .addrs _ => none

/-- `formatValue` applied to a raw decoded ABI value. -/
def formatValueAbi (v : AbiVal) (d : Option ℕ) : String :=
  match abiAmount v with
  | some n => formatValue n d
  | none => "0.0000"

/-- String rendering of a decoded value when assigned to a formatted field
(`formatted.to = decoded[3]`). -/
def abiValToString : AbiVal → String
  | .num n => natToStr n
  | .addr a => a
  | .addrs l => String.intercalate "," l

/-- The `if (decoded[3]) formatted.to = decoded[3]` step shared by the
manual-schema block's exit paths. -/
def manualToStep (c : Cache) (fmt : Formatted) (d3 : Option AbiVal) :
    Cache × Option Formatted :=
  match d3 with
  | some v3 =>
    if abiTruthy v3 then (c, some {fmt with toA := some (abiValToString v3)})
    else (c, some fmt)
  | none => (c, some fmt)

/-- The `if (decoded[1]) { ... amountOutMin ... }` step of the manual-schema
block, followed by the `to` step. -/
def manualOutMinStep (ft : FetchR) (c : Cache) (fmt : Formatted)
    (p : List String) (d1 d3 : Option AbiVal) : Cache × Option Formatted :=
  match d1 with
  | some v1 =>
    if abiTruthy v1 then
      match p.getLast? with
      | none => (c, none)
      | some lastTok =>
        let rOut := getTokenInfoR ft lastTok c
        let str := formatValueAbi v1 (some rOut.info.decimals) ++ " "
          ++ rOut.info.symbol
        manualToStep rOut.cache {fmt with amountOutMin := some str} d3
    else manualToStep c fmt d3
  | none => manualToStep c fmt d3

/-- The manual-schema formatting block (unnamed source, lines 265-301).
`decoded[2]` must be an array (the path); `decoded[0]` (amountIn) pairs with
the FIRST path token and `decoded[1]` (amountOutMin) with the LAST.  Returns
the evolved cache and `none` for the formatted map when the block throws
(indexing an empty path gives `undefined` and `getTokenInfo(undefined)`
raises a `TypeError` out of the block). -/
def buildManualFmt (ft : FetchR) (c : Cache) (decoded : List AbiVal) :
    Cache × Option Formatted :=
  match decoded.get? 2 with
  | some (.addrs p) =>
    let pB := getTokenPathInfo ft p c
    let fmt0 : Formatted := {path := some pB.1}
    match decoded.get? 0 with
    | some v0 =>
      if abiTruthy v0 then
        match p.head? with
        | none => (pB.2, none)
        | some first =>
          let rIn := getTokenInfoR ft first pB.2
          let str := formatValueAbi v0 (some rIn.info.decimals) ++ " "
            ++ rIn.info.symbol
          manualOutMinStep ft rIn.cache {fmt0 with amountIn := some str} p
            (decoded.get? 1) (decoded.get? 3)
      else manualOutMinStep ft pB.2 fmt0 p (decoded.get? 1) (decoded.get? 3)
    | none => manualOutMinStep ft pB.2 fmt0 p (decoded.get? 1) (decoded.get? 3)
  | _ => (c, some {})

/-- The `if (decodedParams.amountOutMin)` and `if (decodedParams.to)` steps
of the catch-path formatting (the path indexing is not null-guarded here). -/
def dfdOutMinStep (ft : FetchR) (c : Cache) (fmt : Formatted)
    (p : List String) (aOutMin : Option ℕ) (aTo : Option String) :
    Cache × Option Formatted :=
  match aOutMin with
  | some w =>
    if w = 0 then (c, some {fmt with toA := toFmtOf aTo})
    else
      match p.getLast? with
      | none => (c, none)
      | some lastTok =>
        let rOut := getTokenInfoR ft lastTok c
        let str := formatValue w (some rOut.info.decimals) ++ " "
          ++ rOut.info.symbol
        (rOut.cache,
         some {fmt with amountOutMin := some str, toA := toFmtOf aTo})
  | none => (c, some {fmt with toA := toFmtOf aTo})

/-- The catch-path formatting on `decodeFunctionData` results (unnamed
source, lines 412-448): path, then amountIn paired with the FIRST hop and
amountOutMin with the LAST (an empty path with a truthy amount throws into
the inner catch → `none`). -/
def buildDfdFmt (ft : FetchR) (c : Cache) (a : NamedArgs) :
    Cache × Option Formatted :=
  match a.path with
  | none => (c, some {})
  | some p =>
    let pB := getTokenPathInfo ft p c
    let fmt0 : Formatted := {path := some pB.1}
    match a.amountIn with
    | some v =>
      if v = 0 then dfdOutMinStep ft pB.2 fmt0 p a.amountOutMin a.toA
      else
        match p.head? with
        | none => (pB.2, none)
        | some first =>
          let rIn := getTokenInfoR ft first pB.2
          let str := formatValue v (some rIn.info.decimals) ++ " "
            ++ rIn.info.symbol
          dfdOutMinStep ft rIn.cache {fmt0 with amountIn := some str} p
            a.amountOutMin a.toA
    | none => dfdOutMinStep ft pB.2 fmt0 p a.amountOutMin a.toA

/-- The catch path of `decodeRouterFunction` (unnamed source, lines 399-505):
retry via `knownSignatures` + `decodeFunctionData`, else scan the interface
fragments, else `UNKNOWN`. -/
def decodeCatchPath (o : IfaceOracle) (ft : FetchR) (c : Cache)
    (input : String) : DecodedOp × Cache :=
  let sig := strTake input 10
  match sigLookup knownSignatures sig with
  | some fname =>
    match o.decodeFnData fname input with
    | some dp =>
      match buildDfdFmt ft c dp.2 with
      | (c', some fmt) => (⟨fname, dp.1, fmt⟩, c')
      | (c', none) => (⟨fname, [], {}⟩, c')
    | none => (⟨fname, [], {}⟩, c)
  | none =>
    match o.fragMatch sig with
    | some n => (⟨n, [], {}⟩, c)
    | none => (⟨"UNKNOWN", [], {}⟩, c)

/-- `decodeRouterFunction` of the unnamed router source (lines 242-506):
manual schema decode for known signatures, then the full-interface parse,
with the catch path as final fallback.  Total by construction: every input
yields a `DecodedOperation`. -/
def decodeRouterFunction (o : IfaceOracle) (ft : FetchR) (c : Cache)
    (input : String) : DecodedOp × Cache :=
  let sig := strTake input 10
  let manual : Cache × Option (Option DecodedOp) :=
    match sigLookup knownSignatures sig with
    | some fname =>
      match fnTypesLookup functionTypes fname with
      | some tys =>
        match decodeParameters tys input with
        | some decoded =>
          match buildManualFmt ft c decoded with
          | (c', some fmt) => (c', some (some ⟨fname, decoded, fmt⟩))
          | (c', none) => (c', none)
        | none => (c, some none)
      | none => (c, some none)
    | none => (c, some none)
  match manual with
  | (c', none) => decodeCatchPath o ft c' input
  | (c', some (some dop)) => (dop, c')
  | (c', some none) =>
    match o.parseTx input with
    | some p =>
      let r := buildIfaceFmt ft c' p.named
      (⟨p.name, p.list, r.1⟩, r.2)
    | none => decodeCatchPath o ft c' input

/-! ## The earlier `monitor.ts` decoder (first revision, lines 104-160) -/

/-- Token records of the first `RouterMonitor` revision, whose
`getTokenInfo` returns a bare `{address}` on failure. -/
structure TokenInfoM where
  address : String
  symbol : Option String
  decimals : Option ℕ
deriving DecidableEq, Repr

abbrev CacheM := List (String × TokenInfoM)

/-- Association lookup for the v1 monitor cache. -/
def cacheGetM (c : CacheM) (k : String) : Option TokenInfoM :=
  match c with
  | [] => none
  | (k', v) :: rest => if k' = k then some v else cacheGetM rest k

/-- `getTokenInfo` of `monitor.ts` (first revision, lines 63-89): both calls
must succeed (no inner catches); on failure the bare record is returned and
NOT cached. -/
def getTokenInfoM (ft : String → Option (String × ℕ)) (addr : String)
    (c : CacheM) : TokenInfoM × CacheM :=
  match cacheGetM c addr with
  | some ti => (ti, c)
  | none =>
    match ft addr with
    | some sd => (⟨addr, some sd.1, some sd.2⟩,
                  (addr, ⟨addr, some sd.1, some sd.2⟩) :: c)
    | none => (⟨addr, none, none⟩, c)

/-- Path resolution of the v1 monitor
(`info.symbol || info.address.slice(0, 10)`). -/
def resolvePathM (ft : String → Option (String × ℕ)) :
    List String → CacheM → List TokenInfoM × CacheM
  | [], c => ([], c)
  | a :: as, c =>
    let r := getTokenInfoM ft a c
    let rest := resolvePathM ft as r.2
    (r.1 :: rest.1, rest.2)

/-- Display form of a v1 token record in a path. -/
def symStrM (ti : TokenInfoM) : String :=
  match ti.symbol with
  | some s => if s = "" then strTake ti.address 10 else s
  | none => strTake ti.address 10

/-- `decodeRouterFunction` of `monitor.ts` (first revision, lines 104-160):
parse with the contract interface; on success format `path` via the token
cache but every amount with `ethers.formatEther` — a FIXED 18-decimal scale;
on failure return `UNKNOWN` with empty args and formatted fields. -/
def decodeRouterFunctionM (o : IfaceOracle) (ft : String → Option (String × ℕ))
    (c : CacheM) (input : String) : DecodedOp × CacheM :=
  match o.parseTx input with
  | none => (⟨"UNKNOWN", [], {}⟩, c)
  | some p =>
    let a := p.named
    let pB : Option String × CacheM :=
      match a.path with
      | some l =>
        let r := resolvePathM ft l c
        (some (String.intercalate " → " (r.1.map symStrM)), r.2)
      | none => (none, c)
    let fake : Formatted :=
      {path := pB.1,
       amountIn := (a.amountIn.bind fun v =>
         if v = 0 then none else some (ethersFormatUnits v 18)),
       amountOut := (a.amountOut.bind fun v =>
         if v = 0 then none else some (ethersFormatUnits v 18)),
       amountOutMin := (a.amountOutMin.bind fun v =>
         if v = 0 then none else some (ethersFormatUnits v 18)),
       amountInMax := (a.amountInMax.bind fun v =>
         if v = 0 then none else some (ethersFormatUnits v 18)),
       toA := toFmtOf a.toA}
    (⟨p.name, p.list, fake⟩, pB.2)

/-! ## Concrete fixtures used by counterexamples and witnesses -/

/-- A fetch oracle whose every call fails. -/
def oNone : String → Option (String × ℕ) := fun _ => none

/-- A router fetch oracle whose every call fails. -/
def ftNone : FetchR := fun _ => (none, none)

/-- An interface oracle on which every parse and decode attempt fails. -/
def failIface : IfaceOracle := ⟨fun _ => none, fun _ _ => none, fun _ => none⟩

/-- A pool state that has already seen transaction `0xAA`. -/
def sSeenC1 : PoolState := ⟨1111, 2222, initCache, ["0xAA"]⟩

/-- The same pool state without the seen hash. -/
def sFreshC1 : PoolState := ⟨1111, 2222, initCache, []⟩

/-- The spec §8 negative-reserve scenario state: reserves (100, 100). -/
def s100 : PoolState := ⟨100, 100, initCache, []⟩

/-- A pool state holding the spec §8 price-test reserves. -/
def sPriceW : PoolState :=
  ⟨2500000000, 1000000000000000000000, initCache, []⟩

/-- 1001 pairwise distinct transaction hashes. -/
def hashStream : List String :=
  (List.range 1001).map (fun i => String.mk (List.replicate i 'a'))

/-- An address with no cache entry, used for the metadata-fallback claims. -/
def addrX : String := "0xDeadBeef00000000000000000000000000000001"

/-- The router monitor's initial cache (WETH pre-seeded, keyed by the raw
address as in the unnamed source). -/
def routerInitCache : Cache := [(WETH_ADDRESS, ⟨WETH_ADDRESS, "WETH", 18⟩)]

/-- An interface oracle that parses every input as a
`swapExactTokensForTokens` with a USDC→WETH path and `amountIn` of 5 USDC
(raw 5000000). -/
def o7 : IfaceOracle :=
  ⟨fun _ => some ⟨"swapExactTokensForTokens", [],
    {path := some [USDC_ADDRESS, WETH_ADDRESS], amountIn := some 5000000,
     amountOutMin := some 1, toA := some "0xTo"}⟩,
   fun _ _ => none, fun _ => none⟩

/-- A fetch oracle resolving the two pool tokens to their real metadata. -/
def ft7 : String → Option (String × ℕ) := fun a =>
  if a = USDC_ADDRESS then some ("USDC", 6)
  else if a = WETH_ADDRESS then some ("WETH", 18)
  else none

/-- A router fetch oracle with constant successful results, used to show the
cached fallback is returned without a second fetch. -/
def ftAlt : FetchR := fun _ => (some "ALT", some 7)

/-- Named arguments exercising all four directional amount fields. -/
def a7 : NamedArgs :=
  {path := some ["0xaaa1", "0xbbb2"], amountIn := some 7, amountOut := some 9,
   amountOutMin := some 11, amountInMax := some 13}

/-- Coherence of a cache `c'` with the fetch oracle relative to a base cache
`c`: every binding is either the base binding or a fetched record for a key
the base lacks.  Every cache produced from `c` by `getTokenInfo` calls is
coherent, and resolving against a coherent cache yields the same record as
resolving against the base — this is what makes "the decimals of the path's
first/last token" well-defined independent of resolution order. -/
def CacheCoh (ft : FetchR) (c c' : Cache) : Prop :=
  ∀ k, cacheGet c' k = cacheGet c k ∨
    (cacheGet c k = none ∧ cacheGet c' k = some (fetchInfo ft k))

/-- Character-list prefix test. -/
def isPrefixC : List Char → List Char → Bool
  | [], _ => true
  | _ :: _, [] => false
  | a :: as, b :: bs => if a = b then isPrefixC as bs else false

/-- Character-list substring test. -/
def hasSub (needle : List Char) : List Char → Bool
  | [] => isPrefixC needle []
  | h :: t => if isPrefixC needle (h :: t) then true else hasSub needle t

/-- Modelled from the spec's error vocabulary (§4.6, §7: "logged as an
inconsistency", "data-integrity warning"): whether a log line reports an
inconsistency / integrity warning. -/
def inconsStr (l : String) : Bool :=
  hasSub "inconsisten".data l.data || hasSub "Inconsisten".data l.data
    || hasSub "integrity".data l.data || hasSub "warning".data l.data
    || hasSub "Warning".data l.data || hasSub "⚠".data l.data

/-! ## Helper lemmas about the pool state machine -/

theorem setHas_false_iff (l : List String) (x : String) :
    setHas l x = false ↔ x ∉ l := by
  induction l with
  | nil => simp [setHas]
  | cons a rest ih =>
    simp only [setHas, List.mem_cons]
    by_cases h : a = x
    · subst h
      simp
    · rw [if_neg h, ih]
      constructor
      · intro hn hx
        rcases hx with hx | hx
        · exact h hx.symm
        · exact hn hx
      · intro hn hx
        exact hn (Or.inr hx)

theorem getTokenInfoPM2_hit (o : String → Option (String × ℕ))
    (addr : String) (c : Cache) (ti : TokenInfo)
    (h : cacheGet c (strLower addr) = some ti) :
    getTokenInfoPM2 o addr c = ⟨ti, c, false⟩ := by
  unfold getTokenInfoPM2
  simp only [h]

theorem handleSync_skip (r0 r1 : ℕ) (txh : String) (s : PoolState)
    (h : setHas s.seenTxHashes txh = true) :
    handleSync r0 r1 txh s = (s, []) := by
  unfold handleSync
  rw [h]
  simp

theorem handleSync_reserves (r0 r1 : ℕ) (txh : String) (s : PoolState)
    (h : setHas s.seenTxHashes txh = false) :
    (handleSync r0 r1 txh s).1.reserve0 = r0 ∧
    (handleSync r0 r1 txh s).1.reserve1 = r1 := by
  unfold handleSync
  rw [h]
  simp only [Bool.false_eq_true, if_false]
  split
  · split <;> simp_all
  · simp

theorem handleSync_step (r0 r1 : ℕ) (txh : String) (s : PoolState)
    (h : setHas s.seenTxHashes txh = false)
    (hlen : s.seenTxHashes.length + 1 ≤ 1000) :
    (handleSync r0 r1 txh s).1.seenTxHashes = s.seenTxHashes ++ [txh] ∧
    (handleSync r0 r1 txh s).1.tokenCache = s.tokenCache := by
  unfold handleSync
  rw [h]
  simp only [Bool.false_eq_true, if_false]
  split
  · have hc : ¬ (1000 < s.seenTxHashes.length + 1) := by omega
    simp [hc]
  · simp

theorem handleSync_clear (r0 r1 : ℕ) (txh : String) (s : PoolState)
    (t0 t1 : TokenInfo)
    (h : setHas s.seenTxHashes txh = false)
    (hlen : s.seenTxHashes.length = 1000)
    (h3 : cacheGet s.tokenCache usdcKey = some t0)
    (h4 : cacheGet s.tokenCache wethKey = some t1) :
    (handleSync r0 r1 txh s).1.seenTxHashes = [] := by
  unfold handleSync
  rw [h]
  simp only [Bool.false_eq_true, if_false, h3, h4]
  have hc : 1000 < s.seenTxHashes.length + 1 := by omega
  simp [hc]

theorem foldSync_append (s : PoolState) (l1 l2 : List String) :
    foldSync s (l1 ++ l2) = foldSync (foldSync s l1) l2 := by
  simp [foldSync, List.foldl_append]

theorem foldSync_seen (hs : List String) :
    ∀ s : PoolState, hs.Nodup → (∀ h ∈ hs, setHas s.seenTxHashes h = false) →
    s.seenTxHashes.length + hs.length ≤ 1000 →
    (foldSync s hs).seenTxHashes = s.seenTxHashes ++ hs ∧
    (foldSync s hs).tokenCache = s.tokenCache := by
  induction hs with
  | nil => intro s _ _ _; simp [foldSync]
  | cons a as ih =>
    intro s hnd hfresh hbound
    have hstep := handleSync_step 1000000 500 a s (hfresh a (by simp))
      (by simp at hbound; omega)
    have hfold : foldSync s (a :: as) =
        foldSync ((handleSync 1000000 500 a s).1) as := by
      simp [foldSync]
    rw [hfold]
    have hnd' : as.Nodup := (List.nodup_cons.mp hnd).2
    have hna : a ∉ as := (List.nodup_cons.mp hnd).1
    have hfresh' : ∀ h ∈ as,
        setHas ((handleSync 1000000 500 a s).1).seenTxHashes h = false := by
      intro h hh
      rw [hstep.1, setHas_false_iff]
      have h1 : h ∉ s.seenTxHashes :=
        (setHas_false_iff _ _).mp (hfresh h (by simp [hh]))
      have h2 : h ≠ a := fun he => hna (he ▸ hh)
      simp [h1, h2]
    have hbound' :
        ((handleSync 1000000 500 a s).1).seenTxHashes.length + as.length
          ≤ 1000 := by
      rw [hstep.1]
      simp only [List.length_append, List.length_singleton]
      simp at hbound
      omega
    obtain ⟨hseen, hcache⟩ := ih ((handleSync 1000000 500 a s).1) hnd'
      hfresh' hbound'
    refine ⟨?_, by rw [hcache, hstep.2]⟩
    rw [hseen, hstep.1]
    simp

/-! ## Claim theorems: pool state tracker -/

/-- C1 (counterexample): a Sync whose transaction hash is already in
`seenTxHashes` does NOT commit its reserve pair — the handler returns early
with the old reserves and no log — while the identical Sync on the same state
without the seen hash does commit; so the recorded reserve value IS affected
by the hash-membership check, contradicting the claim. -/
theorem claim_C1_counterexample :
    (handleSync 7777 8888 "0xAA" sSeenC1).1.reserve0 = 1111 ∧
    ¬ ((handleSync 7777 8888 "0xAA" sSeenC1).1.reserve0 = 7777) ∧
    (handleSync 7777 8888 "0xAA" sSeenC1).2 = [] ∧
    (handleSync 7777 8888 "0xAA" sFreshC1).1.reserve0 = 7777 := by
  decide

/-- C1 (amended): the Sync handler commits the event's absolute reserve pair
exactly when the transaction hash is NOT already in `SeenTransactionSet`;
when the hash is present the event is skipped entirely — no commit and no
log. -/
theorem claim_C1_theorem (r0 r1 : ℕ) (txh : String) (s : PoolState) :
    (setHas s.seenTxHashes txh = true → handleSync r0 r1 txh s = (s, [])) ∧
    (setHas s.seenTxHashes txh = false →
      (handleSync r0 r1 txh s).1.reserve0 = r0 ∧
      (handleSync r0 r1 txh s).1.reserve1 = r1) :=
  ⟨fun h => handleSync_skip r0 r1 txh s h,
   fun h => handleSync_reserves r0 r1 txh s h⟩

/-- C1 (witness): both branches of the amended claim at concrete inputs. -/
theorem claim_C1_witness :
    handleSync 7777 8888 "0xAA" sSeenC1 = (sSeenC1, []) ∧
    ((handleSync 7777 8888 "0xAA" sFreshC1).1.reserve0 = 7777 ∧
     (handleSync 7777 8888 "0xAA" sFreshC1).1.reserve1 = 8888) :=
  ⟨(claim_C1_theorem 7777 8888 "0xAA" sSeenC1).1 rfl,
   (claim_C1_theorem 7777 8888 "0xAA" sFreshC1).2 rfl⟩

/-- C3 (counterexample): handling a Swap records NOTHING in
`SeenTransactionSet` — in fact it leaves the whole state unchanged — so a
Swap with hash `0xAA` does not cause the next Sync with hash `0xAA` to be
classified any differently from an independent Sync. -/
theorem claim_C3_counterexample :
    (handleSwap oNone "0xS" 5 0 0 3 "0xT" "0xAA" initState).1 = initState ∧
    ¬ (setHas
        (handleSwap oNone "0xS" 5 0 0 3 "0xT" "0xAA" initState).1.seenTxHashes
        "0xAA" = true) := by
  decide

/-- C3 (amended): `handleSwap` never records its transaction hash (only
`handleSync` inserts into `SeenTransactionSet`), and with the pool tokens
cached a Swap leaves the monitor state entirely unchanged, so a following
Sync carrying the Swap's hash is processed exactly as an independent
first-seen Sync; only a REPEATED Sync hash changes behaviour (the Sync is
then skipped). -/
theorem claim_C3_theorem (o : String → Option (String × ℕ))
    (sender : String) (a0In a1In a0Out a1Out : ℕ) (toAddr txh : String)
    (s : PoolState) :
    ((handleSwap o sender a0In a1In a0Out a1Out toAddr txh s).1.seenTxHashes
      = s.seenTxHashes) ∧
    (∀ t0 t1, cacheGet s.tokenCache usdcKey = some t0 →
      cacheGet s.tokenCache wethKey = some t1 →
      (handleSwap o sender a0In a1In a0Out a1Out toAddr txh s).1 = s) := by
  constructor
  · rfl
  · intro t0 t1 h0 h1
    have e0 : getTokenInfoPM2 o USDC_ADDRESS s.tokenCache
        = ⟨t0, s.tokenCache, false⟩ :=
      getTokenInfoPM2_hit o USDC_ADDRESS s.tokenCache t0 h0
    have e1 : getTokenInfoPM2 o WETH_ADDRESS s.tokenCache
        = ⟨t1, s.tokenCache, false⟩ :=
      getTokenInfoPM2_hit o WETH_ADDRESS s.tokenCache t1 h1
    unfold handleSwap
    simp only [e0, e1]

/-- C3 (witness): the amended claim at a concrete state. -/
theorem claim_C3_witness :
    ((handleSwap oNone "0xS" 5 0 0 3 "0xT" "0xAA" sFreshC1).1.seenTxHashes
      = sFreshC1.seenTxHashes) ∧
    (handleSwap oNone "0xS" 5 0 0 3 "0xT" "0xAA" sFreshC1).1 = sFreshC1 :=
  ⟨(claim_C3_theorem oNone "0xS" 5 0 0 3 "0xT" "0xAA" sFreshC1).1,
   (claim_C3_theorem oNone "0xS" 5 0 0 3 "0xT" "0xAA" sFreshC1).2
     ⟨USDC_ADDRESS, "USDC", 6⟩ ⟨WETH_ADDRESS, "WETH", 18⟩ rfl rfl⟩

/-- C5 (counterexample): with reserves (100, 100), a Swap with
amount0Out = 150 leaves the reserves at (100, 100) — but NOT because a
candidate update was rejected: the handler emits no inconsistency /
integrity-warning report of any kind, contradicting the claim's required
rejection report. -/
theorem claim_C5_counterexample :
    ((handleSwap oNone "0xS" 0 0 150 0 "0xT" "0xCC" s100).1.reserve0 = 100 ∧
     (handleSwap oNone "0xS" 0 0 150 0 "0xT" "0xCC" s100).1.reserve1 = 100) ∧
    (∀ l ∈ (handleSwap oNone "0xS" 0 0 150 0 "0xT" "0xCC" s100).2,
      inconsStr l = false) := by
  decide

/-- C5 (amended): reserves are naturals only ever assigned from Sync events'
unsigned values, hence non-negative; `handleSwap` applies no reserve deltas
at all — for every Swap the reserve state is unchanged (so the (100, 100) /
amount0Out = 150 scenario trivially retains (100, 100)) and no inconsistency
is reported. -/
theorem claim_C5_theorem :
    (∀ (o : String → Option (String × ℕ)) (sender : String)
      (a0In a1In a0Out a1Out : ℕ) (toAddr txh : String) (s : PoolState),
      (handleSwap o sender a0In a1In a0Out a1Out toAddr txh s).1.reserve0
        = s.reserve0 ∧
      (handleSwap o sender a0In a1In a0Out a1Out toAddr txh s).1.reserve1
        = s.reserve1) ∧
    ((handleSwap oNone "0xS" 0 0 150 0 "0xT" "0xCC" s100).1.reserve0 = 100 ∧
     (∀ l ∈ (handleSwap oNone "0xS" 0 0 150 0 "0xT" "0xCC" s100).2,
       inconsStr l = false)) := by
  constructor
  · intro o sender a0In a1In a0Out a1Out toAddr txh s
    unfold handleSwap
    split <;> exact ⟨rfl, rfl⟩
  · exact ⟨by decide, by decide⟩

/-- C6: `SeenTransactionSet` is bounded by coarse eviction with
insert-then-clear ordering: folding `handleSync` over 1001 distinct hashes
from the initial state leaves the set empty, and every Sync handled on a
state with the pool tokens cached and at most 1000 seen hashes ends with at
most 1000 seen hashes. -/
theorem claim_C6_theorem :
    (∀ hs : List String, hs.Nodup → hs.length = 1001 →
      (foldSync initState hs).seenTxHashes.length = 0) ∧
    (∀ (r0 r1 : ℕ) (txh : String) (s : PoolState) (t0 t1 : TokenInfo),
      cacheGet s.tokenCache usdcKey = some t0 →
      cacheGet s.tokenCache wethKey = some t1 →
      s.seenTxHashes.length ≤ 1000 →
      ((handleSync r0 r1 txh s).1).seenTxHashes.length ≤ 1000) := by
  constructor
  · intro hs hnd hlen
    have hsplit : hs.take 1000 ++ hs.drop 1000 = hs := List.take_append_drop _ _
    have hys : (hs.take 1000).length = 1000 := by
      rw [List.length_take, hlen]
      omega
    have hzs : (hs.drop 1000).length = 1 := by
      rw [List.length_drop, hlen]
    obtain ⟨z, hz⟩ := List.length_eq_one.mp hzs
    have hndys : (hs.take 1000).Nodup := by
      rw [← hsplit] at hnd
      exact (List.nodup_append.mp hnd).1
    have hdisj : (hs.take 1000).Disjoint (hs.drop 1000) := by
      rw [← hsplit] at hnd
      exact (List.nodup_append.mp hnd).2.2
    have hfold := foldSync_seen (hs.take 1000) initState hndys
      (by intro h _; rfl) (by rw [hys]; simp [initState])
    have hznotin : z ∉ hs.take 1000 := by
      intro hin
      exact hdisj hin (by rw [hz]; simp)
    rw [← hsplit, foldSync_append, hz]
    have hstate := hfold
    have hseen : (foldSync initState (hs.take 1000)).seenTxHashes
        = hs.take 1000 := by
      rw [hstate.1]
      simp [initState]
    have hclear := handleSync_clear 1000000 500 z
      (foldSync initState (hs.take 1000)) ⟨USDC_ADDRESS, "USDC", 6⟩
      ⟨WETH_ADDRESS, "WETH", 18⟩
      (by rw [hseen, setHas_false_iff]; exact hznotin)
      (by rw [hseen, hys])
      (by rw [hstate.2]; rfl)
      (by rw [hstate.2]; rfl)
    have : foldSync (foldSync initState (hs.take 1000)) [z]
        = (handleSync 1000000 500 z (foldSync initState (hs.take 1000))).1 := by
      simp [foldSync]
    rw [this, hclear]
    rfl
  · intro r0 r1 txh s t0 t1 h3 h4 hlen
    cases hb : setHas s.seenTxHashes txh with
    | true => rw [handleSync_skip r0 r1 txh s hb]; exact hlen
    | false =>
      unfold handleSync
      rw [hb]
      simp only [Bool.false_eq_true, if_false, h3, h4]
      by_cases hc : 1000 < (s.seenTxHashes ++ [txh]).length
      · rw [if_pos hc]
        simp
      · rw [if_neg hc]
        simp only [List.length_append, List.length_singleton] at hc ⊢
        omega

/-- C6 (witness): the eviction property at 1001 concrete distinct hashes and
the boundedness step at a concrete state. -/
theorem claim_C6_witness :
    (foldSync initState hashStream).seenTxHashes.length = 0 ∧
    (handleSync 3 4 "0xW" initState).1.seenTxHashes.length ≤ 1000 := by
  have hinj : Function.Injective
      (fun i : ℕ => String.mk (List.replicate i 'a')) := by
    intro i j h
    have := congrArg (fun s : String => s.data.length) h
    simpa using this
  have hnd : hashStream.Nodup := List.Nodup.map hinj (List.nodup_range 1001)
  have hlen : hashStream.length = 1001 := by simp [hashStream]
  exact ⟨claim_C6_theorem.1 hashStream hnd hlen,
    claim_C6_theorem.2 3 4 "0xW" initState ⟨USDC_ADDRESS, "USDC", 6⟩
      ⟨WETH_ADDRESS, "WETH", 18⟩ rfl rfl (by decide)⟩

/-- C10: handling a Swap never mutates the reserve state, and the price
printed in the Swap log is computed from the reserves committed by the most
recent Sync (the pre-call `currentReserves`), not from the swap's own
amounts. -/
theorem claim_C10_theorem (o : String → Option (String × ℕ))
    (sender : String) (a0In a1In a0Out a1Out : ℕ) (toAddr txh : String)
    (s : PoolState) (t0 t1 : TokenInfo)
    (h0 : cacheGet s.tokenCache usdcKey = some t0)
    (h1 : cacheGet s.tokenCache wethKey = some t1) :
    (handleSwap o sender a0In a1In a0Out a1Out toAddr txh s).1.reserve0
      = s.reserve0 ∧
    (handleSwap o sender a0In a1In a0Out a1Out toAddr txh s).1.reserve1
      = s.reserve1 ∧
    ("💵 ETH Price: "
      ++ calculatePrice s.reserve0 s.reserve1 t0.decimals t1.decimals
      ++ " USDC")
      ∈ (handleSwap o sender a0In a1In a0Out a1Out toAddr txh s).2 := by
  have e0 : getTokenInfoPM2 o USDC_ADDRESS s.tokenCache
      = ⟨t0, s.tokenCache, false⟩ :=
    getTokenInfoPM2_hit o USDC_ADDRESS s.tokenCache t0 h0
  have e1 : getTokenInfoPM2 o WETH_ADDRESS s.tokenCache
      = ⟨t1, s.tokenCache, false⟩ :=
    getTokenInfoPM2_hit o WETH_ADDRESS s.tokenCache t1 h1
  unfold handleSwap
  simp only [e0, e1]
  refine ⟨trivial, trivial, ?_⟩
  unfold getCurrentPrice
  simp only [h0, h1]
  simp

/-- C10 (witness): the frame property at the spec §8 price reserves. -/
theorem claim_C10_witness :
    (handleSwap oNone "0xS" 1 0 0 2 "0xT" "0xW" sPriceW).1.reserve0
      = sPriceW.reserve0 ∧
    (handleSwap oNone "0xS" 1 0 0 2 "0xT" "0xW" sPriceW).1.reserve1
      = sPriceW.reserve1 ∧
    ("💵 ETH Price: " ++ calculatePrice sPriceW.reserve0 sPriceW.reserve1 6 18
      ++ " USDC")
      ∈ (handleSwap oNone "0xS" 1 0 0 2 "0xT" "0xW" sPriceW).2 :=
  claim_C10_theorem oNone "0xS" 1 0 0 2 "0xT" "0xW" sPriceW
    ⟨USDC_ADDRESS, "USDC", 6⟩ ⟨WETH_ADDRESS, "WETH", 18⟩ rfl rfl

/-! ## Helper lemmas about the router token cache -/

theorem cacheCoh_refl (ft : FetchR) (c : Cache) : CacheCoh ft c c :=
  fun _ => Or.inl rfl

theorem getTokenInfoR_cacheGet (ft : FetchR) (a : String) (c : Cache)
    (k : String) :
    cacheGet (getTokenInfoR ft a c).cache k
      = if a = k then some ((getTokenInfoR ft a c).info) else cacheGet c k := by
  unfold getTokenInfoR
  cases hcg : cacheGet c a with
  | none =>
    by_cases hak : a = k
    · subst hak
      simp [cacheGet, hcg]
    · simp [cacheGet, hak]
  | some ti =>
    by_cases hak : a = k
    · subst hak
      simp [hcg]
    · simp [hak]

theorem resolve_agrees (ft : FetchR) {c c' : Cache}
    (h : CacheCoh ft c c') (a : String) :
    (getTokenInfoR ft a c').info = resolvedInfo ft a c := by
  unfold resolvedInfo getTokenInfoR
  rcases h a with h' | ⟨h1, h2⟩
  · rw [h']
    cases hc : cacheGet c a <;> rfl
  · rw [h1, h2]

theorem cacheCoh_resolve (ft : FetchR) {c c' : Cache}
    (h : CacheCoh ft c c') (a : String) :
    CacheCoh ft c (getTokenInfoR ft a c').cache := by
  intro k
  rw [getTokenInfoR_cacheGet]
  by_cases hak : a = k
  · subst hak
    rw [if_pos rfl, resolve_agrees ft h a]
    unfold resolvedInfo getTokenInfoR
    cases hc : cacheGet c a with
    | none =>
      right
      exact ⟨rfl, rfl⟩
    | some ti =>
      left
      rfl
  · rw [if_neg hak]
    exact h k

theorem cacheCoh_resolvePath (ft : FetchR) (l : List String) :
    ∀ {c c' : Cache}, CacheCoh ft c c' →
    CacheCoh ft c (resolvePath ft l c').2 := by
  induction l with
  | nil => intro c c' h; exact h
  | cons a as ih =>
    intro c c' h
    exact ih (cacheCoh_resolve ft h a)

theorem cacheCoh_pathBlock (ft : FetchR) {c c' : Cache}
    (h : CacheCoh ft c c') (po : Option (List String)) :
    CacheCoh ft c (pathBlock ft c' po).2 := by
  cases po with
  | none => exact h
  | some p =>
    unfold pathBlock getTokenPathInfo
    exact cacheCoh_resolvePath ft p h

theorem cacheCoh_block (ft : FetchR) {c c' : Cache}
    (h : CacheCoh ft c c') (amt : Option ℕ) (tok : Option String) :
    CacheCoh ft c (fmtAmountBlock ft c' amt tok).2 := by
  cases amt with
  | none => exact h
  | some v =>
    cases tok with
    | none =>
      dsimp only [fmtAmountBlock]
      by_cases hv : v = 0
      · rw [if_pos hv]
        exact h
      · rw [if_neg hv]
        exact h
    | some t =>
      dsimp only [fmtAmountBlock]
      by_cases hv : v = 0
      · rw [if_pos hv]
        exact h
      · rw [if_neg hv]
        by_cases ht : t = ""
        · rw [if_pos ht]
          exact h
        · rw [if_neg ht]
          exact cacheCoh_resolve ft h t

theorem fmtAmountBlock_val (ft : FetchR) {c c' : Cache}
    (h : CacheCoh ft c c') {v : ℕ} (hv : v ≠ 0) {t : String} (ht : t ≠ "") :
    (fmtAmountBlock ft c' (some v) (some t)).1
      = some (formatValue v (some (resolvedInfo ft t c).decimals) ++ " "
        ++ (resolvedInfo ft t c).symbol) := by
  dsimp only [fmtAmountBlock]
  rw [if_neg hv, if_neg ht]
  dsimp only []
  rw [resolve_agrees ft h t]

theorem sigLookup_eq_none (l : List (String × String)) (k : String)
    (h : k ∉ l.map Prod.fst) : sigLookup l k = none := by
  induction l with
  | nil => rfl
  | cons p rest ih =>
    simp only [List.map_cons, List.mem_cons] at h
    push_neg at h
    unfold sigLookup
    rw [if_neg (fun he => h.1 he.symm)]
    exact ih h.2

/-! ## Claim theorems: decoder, registry, metadata cache, price -/

/-- C2 (counterexample): on calldata consisting of just the recognized
selector `0xf305d719` (truncated input) with every decode attempt failing
(no manual schema exists for `addLiquidityETH`, and the interface parse,
`decodeFunctionData`, and the fragment scan all fail), the decoder returns
the recognized name `addLiquidityETH` — not `UNKNOWN` as the claim
requires. -/
theorem claim_C2_counterexample :
    (decodeRouterFunction failIface ftNone routerInitCache "0xf305d719").1
      = ⟨"addLiquidityETH", [], {}⟩ ∧
    ("addLiquidityETH" : String) ≠ "UNKNOWN" := by
  decide

/-- C2 (amended): the decoder is total — every input yields a
`DecodedOperation` — and yields `UNKNOWN` with empty args and formatted
fields exactly when the selector is unrecognized by the manual signature map,
the interface parse, and the fragment scan; when the selector IS in the
manual map but every decode attempt fails, the result keeps the recognized
name with empty args and formatted fields. -/
theorem claim_C2_theorem (o : IfaceOracle) (ft : FetchR) (c : Cache)
    (input : String) :
    (∃ d c', decodeRouterFunction o ft c input = (d, c')) ∧
    (sigLookup knownSignatures (strTake input 10) = none →
      o.parseTx input = none → o.fragMatch (strTake input 10) = none →
      (decodeRouterFunction o ft c input).1 = ⟨"UNKNOWN", [], {}⟩) ∧
    (∀ f, sigLookup knownSignatures (strTake input 10) = some f →
      fnTypesLookup functionTypes f = none → o.parseTx input = none →
      o.decodeFnData f input = none →
      (decodeRouterFunction o ft c input).1 = ⟨f, [], {}⟩) := by
  refine ⟨⟨_, _, rfl⟩, ?_, ?_⟩
  · intro h1 h2 h3
    unfold decodeRouterFunction decodeCatchPath
    simp only [h1, h2, h3]
  · intro f h1 h2 h3 h4
    unfold decodeRouterFunction decodeCatchPath
    simp only [h1, h2, h3, h4]

/-- C2 (witness): both classification branches of the amended claim at
concrete inputs against the all-failing oracle. -/
theorem claim_C2_witness :
    (decodeRouterFunction failIface ftNone routerInitCache "0xdeadbeef").1
      = ⟨"UNKNOWN", [], {}⟩ ∧
    (decodeRouterFunction failIface ftNone routerInitCache "0xe8e33700").1
      = ⟨"addLiquidity", [], {}⟩ :=
  ⟨(claim_C2_theorem failIface ftNone routerInitCache "0xdeadbeef").2.1
      rfl rfl rfl,
   (claim_C2_theorem failIface ftNone routerInitCache "0xe8e33700").2.2
      "addLiquidity" rfl rfl rfl rfl⟩

/-- C4 (code bug): evaluating the source's floating-point `calculatePrice`
at reserves (10^22 + 3·10^6 raw USDC, 10^18 raw WETH) renders
`10000000000000002.00`, while the exact scaled-integer price required by the
claim (and by the repository README's "fixed-point arithmetic") is
`10000000000000003.00`: the float64 conversion of the large reserve loses
precision and changes the rendered digits. -/
theorem claim_C4_theorem :
    calculatePrice 10000000000000003000000 1000000000000000000 6 18
      = "10000000000000002.00" ∧
    specExactPrice 10000000000000003000000 1000000000000000000 6 18
      = "10000000000000003.00" ∧
    calculatePrice 10000000000000003000000 1000000000000000000 6 18
      ≠ specExactPrice 10000000000000003000000 1000000000000000000 6 18 := by
  refine ⟨?_, ?_, ?_⟩ <;> decide

/-- C7 (counterexample): the earlier `monitor.ts` decoder formats `amountIn`
with `ethers.formatEther` — a FIXED 18-decimal scale — even when the path's
first token (USDC) has 6 decimals: 5 USDC (raw 5000000) renders as
`0.000000000005` instead of the first-hop-decimals rendering `5.0`,
contradicting the claim's "never a fixed 18-decimal scale". -/
theorem claim_C7_counterexample :
    (decodeRouterFunctionM o7 ft7 [] "0x38ed1739").1.fmt.amountIn
      = some "0.000000000005" ∧
    ethersFormatUnits 5000000 6 = "5.0" ∧
    (("0.000000000005" : String) ≠ "5.0") := by
  decide

/-- C7 (amended): in the dedicated-schema router decoder (the unnamed
source's interface branch), the input-side amounts (`amountIn`,
`amountInMax`) are formatted with the decimals (and symbol) of the path's
FIRST token and the output-side amounts (`amountOut`, `amountOutMin`) with
those of the path's LAST token; the earlier `monitor.ts` revision instead
uses a fixed 18-decimal scale for all amounts. -/
theorem claim_C7_theorem (ft : FetchR) (c : Cache) (a : NamedArgs)
    (l : List String) (tF tL : String) (vIn vInMax vOut vOutMin : ℕ)
    (hp : a.path = some l) (hF : l.head? = some tF)
    (hL : l.getLast? = some tL) (hFe : tF ≠ "") (hLe : tL ≠ "") :
    (a.amountIn = some vIn → vIn ≠ 0 →
      (buildIfaceFmt ft c a).1.amountIn
        = some (formatValue vIn (some (resolvedInfo ft tF c).decimals) ++ " "
          ++ (resolvedInfo ft tF c).symbol)) ∧
    (a.amountInMax = some vInMax → vInMax ≠ 0 →
      (buildIfaceFmt ft c a).1.amountInMax
        = some (formatValue vInMax (some (resolvedInfo ft tF c).decimals)
          ++ " " ++ (resolvedInfo ft tF c).symbol)) ∧
    (a.amountOut = some vOut → vOut ≠ 0 →
      (buildIfaceFmt ft c a).1.amountOut
        = some (formatValue vOut (some (resolvedInfo ft tL c).decimals) ++ " "
          ++ (resolvedInfo ft tL c).symbol)) ∧
    (a.amountOutMin = some vOutMin → vOutMin ≠ 0 →
      (buildIfaceFmt ft c a).1.amountOutMin
        = some (formatValue vOutMin (some (resolvedInfo ft tL c).decimals)
          ++ " " ++ (resolvedInfo ft tL c).symbol)) := by
  have hbF : a.path.bind List.head? = some tF := by
    rw [hp]
    simpa using hF
  have hbL : a.path.bind List.getLast? = some tL := by
    rw [hp]
    simpa using hL
  have h1 : CacheCoh ft c (pathBlock ft c a.path).2 :=
    cacheCoh_pathBlock ft (cacheCoh_refl ft c) a.path
  have h2 : CacheCoh ft c
      (fmtAmountBlock ft (pathBlock ft c a.path).2 a.amountIn
        (a.path.bind List.head?)).2 :=
    cacheCoh_block ft h1 _ _
  have h3 : CacheCoh ft c
      (fmtAmountBlock ft
        (fmtAmountBlock ft (pathBlock ft c a.path).2 a.amountIn
          (a.path.bind List.head?)).2 a.amountOut
        (a.path.bind List.getLast?)).2 :=
    cacheCoh_block ft h2 _ _
  have h4 : CacheCoh ft c
      (fmtAmountBlock ft
        (fmtAmountBlock ft
          (fmtAmountBlock ft (pathBlock ft c a.path).2 a.amountIn
            (a.path.bind List.head?)).2 a.amountOut
          (a.path.bind List.getLast?)).2 a.amountOutMin
        (a.path.bind List.getLast?)).2 :=
    cacheCoh_block ft h3 _ _
  refine ⟨?_, ?_, ?_, ?_⟩
  · intro hin hv
    show (fmtAmountBlock ft (pathBlock ft c a.path).2 a.amountIn
      (a.path.bind List.head?)).1 = _
    rw [hin, hbF]
    exact fmtAmountBlock_val ft h1 hv hFe
  · intro hin hv
    show (fmtAmountBlock ft
      (fmtAmountBlock ft
        (fmtAmountBlock ft
          (fmtAmountBlock ft (pathBlock ft c a.path).2 a.amountIn
            (a.path.bind List.head?)).2 a.amountOut
          (a.path.bind List.getLast?)).2 a.amountOutMin
        (a.path.bind List.getLast?)).2 a.amountInMax
      (a.path.bind List.head?)).1 = _
    rw [hin, hbF]
    rw [hbF] at h4
    exact fmtAmountBlock_val ft h4 hv hFe
  · intro hin hv
    show (fmtAmountBlock ft
      (fmtAmountBlock ft (pathBlock ft c a.path).2 a.amountIn
        (a.path.bind List.head?)).2 a.amountOut
      (a.path.bind List.getLast?)).1 = _
    rw [hin, hbL]
    exact fmtAmountBlock_val ft h2 hv hLe
  · intro hin hv
    show (fmtAmountBlock ft
      (fmtAmountBlock ft
        (fmtAmountBlock ft (pathBlock ft c a.path).2 a.amountIn
          (a.path.bind List.head?)).2 a.amountOut
        (a.path.bind List.getLast?)).2 a.amountOutMin
      (a.path.bind List.getLast?)).1 = _
    rw [hin, hbL]
    rw [hbL] at h3
    exact fmtAmountBlock_val ft h3 hv hLe

/-- C7 (witness): the four directional pairings at concrete arguments. -/
theorem claim_C7_witness :
    (buildIfaceFmt ftNone [] a7).1.amountIn
      = some (formatValue 7 (some (resolvedInfo ftNone "0xaaa1" []).decimals)
        ++ " " ++ (resolvedInfo ftNone "0xaaa1" []).symbol) ∧
    (buildIfaceFmt ftNone [] a7).1.amountInMax
      = some (formatValue 13 (some (resolvedInfo ftNone "0xaaa1" []).decimals)
        ++ " " ++ (resolvedInfo ftNone "0xaaa1" []).symbol) ∧
    (buildIfaceFmt ftNone [] a7).1.amountOut
      = some (formatValue 9 (some (resolvedInfo ftNone "0xbbb2" []).decimals)
        ++ " " ++ (resolvedInfo ftNone "0xbbb2" []).symbol) ∧
    (buildIfaceFmt ftNone [] a7).1.amountOutMin
      = some (formatValue 11 (some (resolvedInfo ftNone "0xbbb2" []).decimals)
        ++ " " ++ (resolvedInfo ftNone "0xbbb2" []).symbol) := by
  have h := claim_C7_theorem ftNone [] a7 ["0xaaa1", "0xbbb2"] "0xaaa1"
    "0xbbb2" 7 13 9 11 rfl rfl rfl (by decide) (by decide)
  exact ⟨h.1 rfl (by decide), h.2.1 rfl (by decide), h.2.2.1 rfl (by decide),
    h.2.2.2 rfl (by decide)⟩

/-- C8 (counterexample): in the second `PoolMonitor` revision's
`getTokenInfo`, a failing metadata fetch returns the fallback record
(first 10 address characters, 18 decimals) WITHOUT caching it, so a second
resolve of the same address performs the network fetch again — contradicting
the claim that the fallback is stored in the cache and never retried. -/
theorem claim_C8_counterexample :
    (getTokenInfoPM2 oNone addrX initCache).info
      = ⟨addrX, strTake addrX 10, 18⟩ ∧
    (getTokenInfoPM2 oNone addrX initCache).cache = initCache ∧
    (getTokenInfoPM2 oNone addrX
      ((getTokenInfoPM2 oNone addrX initCache).cache)).fetched = true := by
  decide

/-- C8 (amended): in the router monitors' / first `PoolMonitor` revision's
`getTokenInfo`, a fully failing fetch yields the fallback
`{symbol: address.slice(0,10), decimals: 18}`, the fallback IS cached, and a
second resolve of the same address returns the cached record without
consulting the fetch oracle at all; the second `PoolMonitor` revision
instead returns its fallback uncached. -/
theorem claim_C8_theorem (ft ft2 : FetchR) (addr : String) (c : Cache)
    (hc : cacheGet c addr = none) (hft : ft addr = (none, none)) :
    (getTokenInfoR ft addr c).info = ⟨addr, strTake addr 10, 18⟩ ∧
    cacheGet (getTokenInfoR ft addr c).cache addr
      = some ((getTokenInfoR ft addr c).info) ∧
    getTokenInfoR ft2 addr ((getTokenInfoR ft addr c).cache)
      = ⟨(getTokenInfoR ft addr c).info, (getTokenInfoR ft addr c).cache,
         false⟩ := by
  have hfi : fetchInfo ft addr = ⟨addr, strTake addr 10, 18⟩ := by
    unfold fetchInfo
    rw [hft]
    rfl
  unfold getTokenInfoR
  rw [hc]
  simp only [hfi]
  refine ⟨trivial, ?_, ?_⟩
  · simp [cacheGet]
  · simp [cacheGet]

/-- C8 (witness): the amended caching behaviour at a concrete address with a
failing oracle. -/
theorem claim_C8_witness :
    (getTokenInfoR ftNone addrX routerInitCache).info
      = ⟨addrX, strTake addrX 10, 18⟩ ∧
    cacheGet (getTokenInfoR ftNone addrX routerInitCache).cache addrX
      = some ((getTokenInfoR ftNone addrX routerInitCache).info) ∧
    getTokenInfoR ftAlt addrX ((getTokenInfoR ftNone addrX routerInitCache).cache)
      = ⟨(getTokenInfoR ftNone addrX routerInitCache).info,
         (getTokenInfoR ftNone addrX routerInitCache).cache, false⟩ :=
  claim_C8_theorem ftNone ftAlt addrX routerInitCache rfl rfl

/-- C9: the registry supports two scoped selector spaces without collision —
under Router scope `0xf305d719` resolves to `addLiquidityETH` while the
pool-scope table maps the same selector to its own registered name
`ADD_LIQUIDITY` — every selector present in a table resolves to exactly its
registered name, and every absent selector yields NotFound (`none`) resp.
`UNKNOWN`. -/
theorem claim_C9_theorem :
    (sigLookup knownSignatures "0xf305d719" = some "addLiquidityETH") ∧
    (∀ p ∈ knownSignatures, sigLookup knownSignatures p.1 = some p.2) ∧
    (∀ sel : String, sel ∉ knownSignatures.map Prod.fst →
      sigLookup knownSignatures sel = none) ∧
    (∀ input : String, strTake input 10 = ADD_LIQUIDITY_SIG →
      getTransactionType input = "ADD_LIQUIDITY") ∧
    (∀ input : String,
      strTake input 10 ∉
        ([SWAP_SIG, ADD_LIQUIDITY_SIG, REMOVE_LIQUIDITY_SIG] : List String) →
      getTransactionType input = "UNKNOWN") := by
  refine ⟨by decide, by decide, ?_, ?_, ?_⟩
  · intro sel h
    exact sigLookup_eq_none knownSignatures sel h
  · intro input h
    unfold getTransactionType
    rw [h]
    rfl
  · intro input h
    simp only [List.mem_cons, List.not_mem_nil, or_false] at h
    push_neg at h
    unfold getTransactionType
    rw [if_neg h.1, if_neg h.2.1, if_neg h.2.2]

/-- C9 (witness): the registry lookups at concrete selectors. -/
theorem claim_C9_witness :
    sigLookup knownSignatures "0x38ed1739" = some "swapExactTokensForTokens" ∧
    sigLookup knownSignatures "0xdeadbeef" = none ∧
    getTransactionType "0xf305d719cafebabe" = "ADD_LIQUIDITY" ∧
    getTransactionType "0xdeadbeefcafebabe" = "UNKNOWN" :=
  ⟨claim_C9_theorem.2.1 ("0x38ed1739", "swapExactTokensForTokens")
      (by decide),
   claim_C9_theorem.2.2.1 "0xdeadbeef" (by decide),
   claim_C9_theorem.2.2.2.1 "0xf305d719cafebabe" (by decide),
   claim_C9_theorem.2.2.2.2 "0xdeadbeefcafebabe" (by decide)⟩
